import Mathlib

/-!
Verification of the transaction ingestion and categorization pipeline of the
finance-local repository.  Each Python function named in the claims is given a
shallow embedding below, translated directly from the source files under
backend/app/; theorems about those embeddings settle the claims.

Conventions used throughout:
- Python strings are Lean Strings; character-level work happens on List Char.
- Python Optional[int] database columns are Option Nat; the Python truthiness
  test "if x:" on such a column is the Boolean test optNatTruthy below.
- Fallible steps (try/except) are modelled with Except / Option.
- External effectful collaborators that the claims do not constrain (the SHA-256
  digest, the compiled-regex search, the sklearn model fit) enter as function
  parameters which the theorems quantify over.
-/

set_option autoImplicit false

namespace FinanceLocal

/-! ## Character and string helpers -/

/-- Python str whitespace characters, as matched by str.strip and the regex
class backslash-s (ASCII range). -/
def isPySpace (c : Char) : Bool :=
  c = ' ' || c = '\t' || c = '\n' || c = '\r' || c = '\x0b' || c = '\x0c'

/-- Python str.lower, ASCII model. -/
def lowerChars (l : List Char) : List Char := l.map Char.toLower

/-- Python str.upper, ASCII model. -/
def upperChars (l : List Char) : List Char := l.map Char.toUpper

/-- Python str.strip() with no argument: drop whitespace from both ends. -/
def stripChars (l : List Char) : List Char :=
  ((l.dropWhile isPySpace).reverse.dropWhile isPySpace).reverse

/-- Helper for whitespace collapsing: the Boolean flag records whether the
previous character was part of a whitespace run already emitted as a single
space. -/
def collapseAux : Bool → List Char → List Char
  | _, [] => []
  | prev, c :: rest =>
    if isPySpace c then
      if prev then collapseAux true rest else ' ' :: collapseAux true rest
    else c :: collapseAux false rest

/-- Model of re.sub over a whitespace-run pattern replacing each maximal run of
whitespace with a single space. -/
def collapseWs (l : List Char) : List Char := collapseAux false l

/-- Python str.lower on Strings. -/
def pyLower (s : String) : String := (lowerChars s.data).asString

/-- Python str.upper on Strings. -/
def pyUpper (s : String) : String := (upperChars s.data).asString

/-- Python " ".join(words). -/
def joinSpace : List String → String
  | [] => ""
  | [w] => w
  | w :: rest => w ++ " " ++ joinSpace rest

/-- Python str.strip() on Strings. -/
def pyStrip (s : String) : String := (stripChars s.data).asString

/-- Decidable substring containment, modelling the Python expression
"needle in haystack"; checked at the character-list level. -/
def startsWithList : List Char → List Char → Bool
  | [], _ => true
  | _ :: _, [] => false
  | n :: ns, h :: hs => n = h && startsWithList ns hs

/-- Substring search on character lists. -/
def containsList (needle : List Char) : List Char → Bool
  | [] => startsWithList needle []
  | c :: rest => startsWithList needle (c :: rest) || containsList needle rest

/-- Python "needle in haystack" for Strings. -/
def strContains (haystack needle : String) : Bool :=
  containsList needle.data haystack.data

/-! ## Fingerprinter (backend/app/ingest/service.py lines 13-24) -/

/-- Embeds _normalize_description: description.strip().lower() with internal
whitespace runs collapsed to single spaces by re.sub. -/
def normalizeDescription (s : String) : String :=
  (collapseWs (lowerChars (stripChars s.data))).asString

/-- The exact string handed to hashlib.sha256 by _compute_fingerprint:
the f-string joining posted_date.isoformat(), str(amount) and the normalized
description with pipe characters.  Dates and amounts are carried as their
Python string renderings. -/
def fingerprintInput (dateIso amountStr description : String) : String :=
  dateIso ++ "|" ++ amountStr ++ "|" ++ normalizeDescription description

/-- Embeds _compute_fingerprint.  The SHA-256 hex digest is an external pure
function of the input string; it enters as the parameter digest, so every
theorem about fingerprints states exactly which digest properties it uses. -/
def computeFingerprint (digest : String → String)
    (dateIso amountStr description : String) : String :=
  digest (fingerprintInput dateIso amountStr description)

/-! ## Mined-rule priority (backend/app/api/learning.py lines 97-110) -/

/-- Python int() applied to a rational: truncation toward zero. -/
def ratTrunc (q : ℚ) : ℤ := if 0 ≤ q then ⌊q⌋ else ⌈q⌉

/-- Embeds _compute_priority.  precision is the exact rational
best_count / total_count computed by the caller; the Python float arithmetic
agrees with exact rational arithmetic here for all support counts that fit
well below 2 to the 52, which covers every reachable input. -/
def computePriority (precision : ℚ) (support : ℕ) : ℤ :=
  let precisionScore : ℤ := ratTrunc ((1 - precision) * 400)
  let supportScore : ℕ := 50 - min support 50
  let p : ℤ := 10 + precisionScore + (supportScore / 2 : ℕ)
  min (max p 10) 100

/-! ## Lemmas about truncation and pipe-separated encodings -/

theorem ratTrunc_mono {q r : ℚ} (h : q ≤ r) : ratTrunc q ≤ ratTrunc r := by
  unfold ratTrunc
  by_cases hq : 0 ≤ q <;> by_cases hr : 0 ≤ r <;> simp [hq, hr]
  · exact Int.floor_mono h
  · exact absurd (le_trans hq h) hr
  · exact le_trans (Int.ceil_le.mpr (by exact_mod_cast le_of_not_le hq))
      (Int.floor_nonneg.mpr hr)
  · exact Int.ceil_mono h

theorem pipe_split {xs ys t1 t2 : List Char} (hx : '|' ∉ xs) (hy : '|' ∉ ys)
    (h : xs ++ '|' :: t1 = ys ++ '|' :: t2) : xs = ys ∧ t1 = t2 := by
  induction xs generalizing ys with
  | nil =>
    cases ys with
    | nil => simpa using h
    | cons y ys' =>
      simp only [List.nil_append, List.cons_append, List.cons.injEq] at h
      rw [← h.1] at hy
      exact absurd (List.mem_cons_self '|' ys') hy
  | cons x xs' ih =>
    cases ys with
    | nil =>
      simp only [List.nil_append, List.cons_append, List.cons.injEq] at h
      rw [h.1] at hx
      exact absurd (List.mem_cons_self '|' xs') hx
    | cons y ys' =>
      simp only [List.cons_append, List.cons.injEq] at h
      have hx' : '|' ∉ xs' := fun m => hx (List.mem_cons_of_mem _ m)
      have hy' : '|' ∉ ys' := fun m => hy (List.mem_cons_of_mem _ m)
      obtain ⟨h1, h2⟩ := ih hx' hy' h.2
      exact ⟨by rw [h.1, h1], h2⟩

/-! ## Claim C8: priority range and monotonicity -/

/-- C8.  For every precision and support, _compute_priority returns a value in
the inclusive range 10 to 100, and the function is antitone in each argument
separately: raising precision never raises the priority, and raising support
never raises the priority. -/
theorem computePriority_range_monotone (p p' : ℚ) (s s' : ℕ) :
    (10 ≤ computePriority p s ∧ computePriority p s ≤ 100) ∧
    (p ≤ p' → computePriority p' s ≤ computePriority p s) ∧
    (s ≤ s' → computePriority p s' ≤ computePriority p s) := by
  refine ⟨⟨le_min (le_max_right _ _) (by norm_num), min_le_right _ _⟩, ?_, ?_⟩
  · intro h
    unfold computePriority
    refine min_le_min (max_le_max ?_ le_rfl) le_rfl
    have h400 : (1 - p') * 400 ≤ (1 - p) * 400 := by nlinarith
    have := ratTrunc_mono h400
    omega
  · intro h
    unfold computePriority
    refine min_le_min (max_le_max ?_ le_rfl) le_rfl
    have hmin : min s 50 ≤ min s' 50 := min_le_min h le_rfl
    have hsub : 50 - min s' 50 ≤ 50 - min s 50 := Nat.sub_le_sub_left hmin 50
    have hdiv : (50 - min s' 50) / 2 ≤ (50 - min s 50) / 2 := Nat.div_le_div_right hsub
    have hz : ((((50 - min s' 50) / 2 : ℕ)) : ℤ) ≤ (((50 - min s 50) / 2 : ℕ) : ℤ) := by
      exact_mod_cast hdiv
    omega

/-- Witness for C8 at concrete inputs. -/
theorem computePriority_range_monotone_witness :
    computePriority 1 5 ≤ computePriority (9/10) 5 ∧
      computePriority (9/10) 50 ≤ computePriority (9/10) 5 :=
  ⟨(computePriority_range_monotone (9/10) 1 5 5).2.1 (by norm_num),
   (computePriority_range_monotone (9/10) (9/10) 5 50).2.2 (by norm_num)⟩

/-! ## Claim C5: fingerprint stability -/

/-- C5.  With the SHA-256 hex digest modelled as an arbitrary injective
function of the hashed string (collision-freeness), and dates and amounts
carried as their Python renderings (ISO dates have length 10; Decimal
renderings never contain a pipe character): two descriptions equal after
lowercasing, stripping and whitespace collapsing fingerprint equally at the
same date and amount, and the fingerprints agree exactly when both the date
and the amount agree — so they differ whenever the date or amount differs. -/
theorem fingerprint_stability (digest : String → String)
    (hinj : Function.Injective digest)
    (d1 d2 a1 a2 s1 s2 : String)
    (hd1 : d1.length = 10) (hd2 : d2.length = 10)
    (ha1 : '|' ∉ a1.data) (ha2 : '|' ∉ a2.data)
    (hn : normalizeDescription s1 = normalizeDescription s2) :
    computeFingerprint digest d1 a1 s1 = computeFingerprint digest d2 a2 s2 ↔
      (d1 = d2 ∧ a1 = a2) := by
  constructor
  · intro h
    have hin : fingerprintInput d1 a1 s1 = fingerprintInput d2 a2 s2 := hinj h
    have hdata : d1.data ++ ('|' :: (a1.data ++ '|' ::
        (normalizeDescription s1).data)) = d2.data ++ ('|' :: (a2.data ++ '|' ::
        (normalizeDescription s2).data)) := by
      have := congrArg String.data hin
      simpa [fingerprintInput, String.data_append] using this
    have hlen : d1.data.length = d2.data.length := by
      have l1 : d1.data.length = d1.length := rfl
      have l2 : d2.data.length = d2.length := rfl
      rw [l1, l2, hd1, hd2]
    obtain ⟨hdeq, htail⟩ := List.append_inj hdata hlen
    have htail' : a1.data ++ '|' :: (normalizeDescription s1).data =
        a2.data ++ '|' :: (normalizeDescription s2).data := by
      simpa using htail
    obtain ⟨haeq, _⟩ := pipe_split ha1 ha2 htail'
    exact ⟨String.ext hdeq, String.ext haeq⟩
  · rintro ⟨rfl, rfl⟩
    show digest _ = digest _
    rw [fingerprintInput, fingerprintInput, hn]

/-- Witness for C5: the spec's own example, at digest = id. -/
theorem fingerprint_stability_witness :
    computeFingerprint id "2024-01-02" "5.00" "Coffee  Shop" =
      computeFingerprint id "2024-01-02" "5.00" "coffee shop" :=
  (fingerprint_stability id (fun _ _ h => h) "2024-01-02" "2024-01-02"
    "5.00" "5.00" "Coffee  Shop" "coffee shop" (by decide) (by decide)
    (by decide) (by decide) (by decide)).mpr ⟨rfl, rfl⟩

/-! ## Categorization engine (backend/app/categorize/engine.py) -/

/-- Python str.split() with no argument: split on whitespace runs, dropping
empty pieces.  The accumulator holds the current token reversed. -/
def wsSplitAux : List Char → List Char → List String
  | cur, [] => if cur.isEmpty then [] else [cur.reverse.asString]
  | cur, c :: rest =>
    if isPySpace c then
      if cur.isEmpty then wsSplitAux [] rest
      else cur.reverse.asString :: wsSplitAux [] rest
    else wsSplitAux (c :: cur) rest

/-- Python s.split() on a String. -/
def pySplit (s : String) : List String := wsSplitAux [] s.data

/-- Boolean string prefix test (Python str.startswith). -/
def strStarts (t p : String) : Bool := startsWithList p.data t.data

/-- The STRIP_PREFIXES table of engine.py: transaction-type lead-ins removed
from the front of a merchant string, first match only. -/
def engineStripLeads : List String :=
  ["POS PURCHASE", "POS PUR", "POS DEBIT", "DEBIT CARD PURCHASE", "DEBIT CARD",
   "CHECKCARD", "CHECK CARD", "VISA DEBIT", "MASTERCARD DEBIT",
   "RECURRING PAYMENT", "RECURRING", "PREAUTHORIZED", "PRE-AUTHORIZED",
   "PURCHASE", "WITHDRAWAL", "ACH DEBIT", "ACH CREDIT", "WIRE TRANSFER",
   "ONLINE TRANSFER", "MOBILE PAYMENT", "ZELLE PAYMENT", "ZELLE"]

/-- Strip the first matching lead-in from the table, then str.strip(), as in
the for/break loop of normalize_merchant_key. -/
def dropFirstLead : List String → String → String
  | [], t => t
  | p :: ps, t => if strStarts t p then pyStrip (t.drop p.length) else dropFirstLead ps t

/-- Membership in the regex class A-Z0-9. -/
def isKeyChar (c : Char) : Bool := ('A' ≤ c && c ≤ 'Z') || c.isDigit

/-- The anchored re.sub removing leading and trailing runs of characters
outside A-Z0-9. -/
def trimNonAlnum (l : List Char) : List Char :=
  ((l.dropWhile (fun c => !isKeyChar c)).reverse.dropWhile (fun c => !isKeyChar c)).reverse

/-- Embeds normalize_merchant_key of engine.py: uppercase and collapse
whitespace, strip one transaction-type lead-in, trim non-alphanumeric ends. -/
def normalizeMerchantKey (s : String) : String :=
  if s = "" then ""
  else
    let normalized := joinSpace (pySplit (pyUpper s))
    let normalized := dropFirstLead engineStripLeads normalized
    (trimNonAlnum normalized.data).asString

/-- Merchant row: id, household, key, optional default category. -/
structure Merchant where
  id : Nat
  householdId : Nat
  merchantKey : String
  defaultCategoryId : Option Nat
deriving DecidableEq

/-- Legacy MerchantOverride row. -/
structure MerchantOverride where
  householdId : Nat
  merchantKey : String
  categoryId : Option Nat
deriving DecidableEq

/-- CategoryRule row. -/
structure CategoryRule where
  householdId : Nat
  pattern : String
  categoryId : Option Nat
  priority : Int
  enabled : Bool
deriving DecidableEq

/-- The slice of the relational store the engine reads. -/
structure Db where
  merchants : List Merchant
  overrides : List MerchantOverride
  rules : List CategoryRule

/-- Python truthiness of an Optional[int] column: None and 0 are falsy. -/
def optNatTruthy : Option Nat → Bool
  | none => false
  | some n => n != 0

/-- Query Merchant by primary key alone — note there is no household filter
here, mirroring the merchant_id branch of categorize_transaction. -/
def merchantById (db : Db) (mid : Nat) : Option Merchant :=
  db.merchants.find? (fun m => m.id == mid)

/-- Query Merchant by (household_id, merchant_key). -/
def merchantByKey (db : Db) (h : Nat) (key : String) : Option Merchant :=
  db.merchants.find? (fun m => m.householdId == h && m.merchantKey == key)

/-- Query MerchantOverride by (household_id, merchant_key). -/
def overrideByKey (db : Db) (h : Nat) (key : String) : Option MerchantOverride :=
  db.overrides.find? (fun o => o.householdId == h && o.merchantKey == key)

/-- Step 1 of categorize_transaction: the merchant_id branch, guarded by the
truthiness of the argument; yields the default category when it is truthy. -/
def merchantDefaultById (db : Db) (merchantId : Option Nat) : Option Nat :=
  if optNatTruthy merchantId then
    match merchantById db (merchantId.getD 0) with
    | some m => if optNatTruthy m.defaultCategoryId then m.defaultCategoryId else none
    | none => none
  else none

/-- The merchant_key actually used: the given one when truthy, otherwise
normalize_merchant_key of (merchant or description). -/
def effectiveMerchantKey (description : String) (merchant : Option String)
    (merchantKey : Option String) : String :=
  let mk := merchantKey.getD ""
  if mk ≠ "" then mk
  else normalizeMerchantKey
    (match merchant with
     | some m => if m ≠ "" then m else description
     | none => description)

/-- Step 1b of categorize_transaction: merchant default via (household, key). -/
def merchantDefaultByKey (db : Db) (h : Nat) (key : String) : Option Nat :=
  if key ≠ "" then
    match merchantByKey db h key with
    | some m => if optNatTruthy m.defaultCategoryId then m.defaultCategoryId else none
    | none => none
  else none

/-- Step 2 of categorize_transaction: the legacy MerchantOverride branch. -/
def overrideCategory (db : Db) (h : Nat) (key : String) : Option Nat :=
  if key ≠ "" then
    match overrideByKey db h key with
    | some o => if optNatTruthy o.categoryId then o.categoryId else none
    | none => none
  else none

/-- Stable insertion for the priority-ascending rule ordering; rules of equal
priority keep their store order. -/
def insertByPriority (r : CategoryRule) : List CategoryRule → List CategoryRule
  | [] => [r]
  | x :: xs => if r.priority ≤ x.priority then r :: x :: xs else x :: insertByPriority r xs

/-- The rule query of step 3: enabled rules of the household ordered by
ascending priority. -/
def sortedEnabledRules (db : Db) (h : Nat) : List CategoryRule :=
  (db.rules.filter (fun r => r.householdId == h && r.enabled)).foldr insertByPriority []

/-- The for-loop over rules: re.search is an external engine entering as the
parameter rx (pattern, then text); an .error result models re.error, which the
loop silently skips, and a match with a falsy category_id does not return. -/
def ruleScan (rx : String → String → Except Unit Bool) (searchText : String) :
    List CategoryRule → Option Nat
  | [] => none
  | r :: rest =>
    match rx r.pattern searchText with
    | .error _ => ruleScan rx searchText rest
    | .ok true => if optNatTruthy r.categoryId then r.categoryId else ruleScan rx searchText rest
    | .ok false => ruleScan rx searchText rest

/-- Embeds categorize_transaction of engine.py: merchant default (by id, then
by key), then legacy override, then the first enabled rule by ascending
priority whose pattern matches the uppercased description with a truthy
category, else none. -/
def categorizeTransaction (rx : String → String → Except Unit Bool) (db : Db)
    (householdId : Nat) (description : String) (merchant : Option String)
    (merchantId : Option Nat) (merchantKey : Option String) : Option Nat :=
  match merchantDefaultById db merchantId with
  | some c => some c
  | none =>
    let key := effectiveMerchantKey description merchant merchantKey
    match merchantDefaultByKey db householdId key with
    | some c => some c
    | none =>
      match overrideCategory db householdId key with
      | some c => some c
      | none => ruleScan rx (pyUpper description) (sortedEnabledRules db householdId)

/-- A regex engine that matches every pattern; used to make precedence
examples concrete (rules that would match are still ignored). -/
def rxAlways : String → String → Except Unit Bool := fun _ _ => Except.ok true

/-- Store for the precedence example: the merchant's default category is 5 and
an enabled rule with the lowest possible priority would map to 9. -/
def demoDb : Db :=
  { merchants := [⟨1, 1, "NETFLIX", some 5⟩],
    overrides := [],
    rules := [⟨1, "STREAM", some 9, 1, true⟩] }

/-- Store for the rule-order example: an enabled null-category rule at
priority 5, then categories 3 and 4 at priorities 10 and 20, plus a
foreign-household rule at priority 1. -/
def demoRulesDb : Db :=
  { merchants := [],
    overrides := [],
    rules := [⟨1, "B", some 4, 20, true⟩, ⟨1, "N", none, 5, true⟩,
              ⟨1, "A", some 3, 10, true⟩, ⟨2, "Z", some 8, 1, true⟩] }

/-- Store with only a legacy override for key SHOP mapping to category 6. -/
def demoOverrideDb : Db :=
  { merchants := [], overrides := [⟨1, "SHOP", some 6⟩], rules := [] }

/-! ## Claim C1: categorization precedence -/

/-- C1.  First-hit-wins precedence of categorize_transaction: a truthy
merchant default resolved by merchant_id or by (household, merchant_key) is
returned no matter what the rules say; otherwise a truthy legacy override for
the same key wins; otherwise the result is exactly the scan of the household's
enabled rules in ascending priority order, where the first regex match with a
truthy category wins and an exhausted scan gives none.  The two closed
conjuncts instantiate the spec's example (default category 5 beats an enabled
priority-1 rule mapping to 9, under a regex engine that matches everything)
and the rule scan (null-category rule at priority 5 is passed over, priority
10 beats priority 20, a foreign household's rule is never consulted). -/
theorem categorize_precedence (rx : String → String → Except Unit Bool)
    (db : Db) (h : Nat) (desc : String) (merchant : Option String)
    (mid : Option Nat) (mkey : Option String) :
    (∀ c, merchantDefaultById db mid = some c →
       categorizeTransaction rx db h desc merchant mid mkey = some c) ∧
    (∀ c, merchantDefaultById db mid = none →
       merchantDefaultByKey db h (effectiveMerchantKey desc merchant mkey) = some c →
       categorizeTransaction rx db h desc merchant mid mkey = some c) ∧
    (∀ c, merchantDefaultById db mid = none →
       merchantDefaultByKey db h (effectiveMerchantKey desc merchant mkey) = none →
       overrideCategory db h (effectiveMerchantKey desc merchant mkey) = some c →
       categorizeTransaction rx db h desc merchant mid mkey = some c) ∧
    (merchantDefaultById db mid = none →
       merchantDefaultByKey db h (effectiveMerchantKey desc merchant mkey) = none →
       overrideCategory db h (effectiveMerchantKey desc merchant mkey) = none →
       categorizeTransaction rx db h desc merchant mid mkey =
         ruleScan rx (pyUpper desc) (sortedEnabledRules db h)) ∧
    categorizeTransaction rxAlways demoDb 1 "NETFLIX COM" none (some 1) (some "NETFLIX")
      = some 5 ∧
    categorizeTransaction rxAlways demoRulesDb 1 "GROCERY STORE" none none none = some 3 := by
  refine ⟨?_, ?_, ?_, ?_, by decide, by decide⟩
  · intro c h1
    simp [categorizeTransaction, h1]
  · intro c h1 h2
    simp [categorizeTransaction, h1, h2]
  · intro c h1 h2 h3
    simp [categorizeTransaction, h1, h2, h3]
  · intro h1 h2 h3
    simp [categorizeTransaction, h1, h2, h3]

/-- Witness for C1: the override branch fires on a concrete store once both
merchant lookups are empty. -/
theorem categorize_precedence_witness :
    categorizeTransaction rxAlways demoOverrideDb 1 "SHOP" none none none = some 6 :=
  (categorize_precedence rxAlways demoOverrideDb 1 "SHOP" none none none).2.2.1 6
    (by decide) (by decide) (by decide)

/-! ## Claim C10: the merchant_id branch is not household-scoped -/

/-- Store whose only merchant belongs to household 2 while the caller will
categorize for household 1. -/
def demoForeignDb : Db :=
  { merchants := [⟨42, 2, "AMAZON", some 9⟩], overrides := [], rules := [] }

/-- C10.  The merchant_id branch of categorize_transaction looks the Merchant
up by id alone: whenever the id resolves to a merchant row of a different
household with a truthy default category, that foreign household's category is
returned. -/
theorem merchantId_branch_not_household_scoped
    (rx : String → String → Except Unit Bool) (db : Db) (h : Nat)
    (desc : String) (merchant : Option String) (mkey : Option String)
    (mid : Nat) (M : Merchant) (c : Nat)
    (hmid : mid ≠ 0) (hfind : merchantById db mid = some M)
    (_hforeign : M.householdId ≠ h)
    (hdef : M.defaultCategoryId = some c) (hc : c ≠ 0) :
    categorizeTransaction rx db h desc merchant (some mid) mkey = some c := by
  have h1 : merchantDefaultById db (some mid) = some c := by
    unfold merchantDefaultById
    simp [optNatTruthy, hmid, hfind, hdef, hc]
  simp [categorizeTransaction, h1]

/-- Witness for C10: household 1 receives household 2's default category. -/
theorem merchantId_branch_not_household_scoped_witness :
    categorizeTransaction rxAlways demoForeignDb 1 "X" none (some 42) none = some 9 :=
  merchantId_branch_not_household_scoped rxAlways demoForeignDb 1 "X" none none
    42 ⟨42, 2, "AMAZON", some 9⟩ 9 (by decide) (by decide) (by decide)
    (by decide) (by decide)

/-! ## Ingestion orchestrator (backend/app/ingest/service.py lines 62-222) -/

/-- A parsed candidate as handed to the dedup loop: the posted date and the
Decimal amount are carried as their Python string renderings, which is exactly
what the fingerprint f-string consumes. -/
structure Cand where
  dateIso : String
  amountStr : String
  description : String
deriving DecidableEq

/-- A persisted transaction row as far as the dedup loop reads and writes it. -/
structure StoredTxn where
  fingerprint : String
  dateIso : String
  amountStr : String
  description : String
  categoryId : Option Nat
deriving DecidableEq

/-- Fingerprint of a candidate. -/
def candFingerprint (digest : String → String) (c : Cand) : String :=
  computeFingerprint digest c.dateIso c.amountStr c.description

/-- The stored fingerprints, i.e. the db.query(Transaction).filter(fingerprint
== fp) existence check ranges over these. -/
def storeFps (store : List StoredTxn) : List String := store.map (·.fingerprint)

/-- Result record of one ingest run: imported_count, skipped_count and the
store after the batch. -/
structure IngestCounts where
  importedCount : Nat
  skippedCount : Nat
  store : List StoredTxn
deriving DecidableEq

/-- The per-candidate loop of ingest_import: batch-local seen-set check, then
existence check against stored fingerprints, then insert.  The merchant
extraction and categorization of an inserted row only populate non-fingerprint
columns, so they enter as the parameter assignCategory. -/
def ingestAux (digest : String → String) (assignCategory : Cand → Option Nat) :
    List Cand → List String → List StoredTxn → Nat → Nat → IngestCounts
  | [], _, store, imported, skipped => ⟨imported, skipped, store⟩
  | c :: rest, seen, store, imported, skipped =>
    let fp := candFingerprint digest c
    if fp ∈ seen then
      ingestAux digest assignCategory rest seen store imported (skipped + 1)
    else if fp ∈ storeFps store then
      ingestAux digest assignCategory rest (fp :: seen) store imported (skipped + 1)
    else
      ingestAux digest assignCategory rest (fp :: seen)
        (store ++ [⟨fp, c.dateIso, c.amountStr, c.description, assignCategory c⟩])
        (imported + 1) skipped

/-- Embeds the counting part of ingest_import: process all parsed candidates
against the store, starting from an empty seen-set and zero counts. -/
def ingestImport (digest : String → String) (assignCategory : Cand → Option Nat)
    (cands : List Cand) (store : List StoredTxn) : IngestCounts :=
  ingestAux digest assignCategory cands [] store 0 0

theorem ingestAux_store_mono (digest : String → String)
    (assign : Cand → Option Nat) (cands : List Cand) :
    ∀ seen store i s, storeFps store ⊆
      storeFps (ingestAux digest assign cands seen store i s).store := by
  induction cands with
  | nil => intro seen store i s; exact fun f hf => hf
  | cons c rest ih =>
    intro seen store i s
    unfold ingestAux
    by_cases h1 : candFingerprint digest c ∈ seen
    · simp only [h1, if_pos]
      exact ih seen store i (s + 1)
    · simp only [h1, if_neg, if_false]
      by_cases h2 : candFingerprint digest c ∈ storeFps store
      · simp only [h2, if_pos]
        exact ih _ store i (s + 1)
      · simp only [h2, if_neg, if_false]
        intro f hf
        refine ih _ _ (i + 1) s ?_
        simp only [storeFps, List.map_append]
        exact List.mem_append_left _ hf

theorem ingestAux_fps_complete (digest : String → String)
    (assign : Cand → Option Nat) (cands : List Cand) :
    ∀ seen store i s, (∀ f ∈ seen, f ∈ storeFps store) →
      ∀ c ∈ cands, candFingerprint digest c ∈
        storeFps (ingestAux digest assign cands seen store i s).store := by
  induction cands with
  | nil => intro _ _ _ _ _ c hc; cases hc
  | cons c rest ih =>
    intro seen store i s hseen d hd
    unfold ingestAux
    rcases List.mem_cons.mp hd with rfl | hd'
    · by_cases h1 : candFingerprint digest d ∈ seen
      · simp only [h1, if_pos]
        exact ingestAux_store_mono digest assign rest seen store i (s + 1)
          (hseen _ h1)
      · simp only [h1, if_neg, if_false]
        by_cases h2 : candFingerprint digest d ∈ storeFps store
        · simp only [h2, if_pos]
          exact ingestAux_store_mono digest assign rest _ store i (s + 1) h2
        · simp only [h2, if_neg, if_false]
          refine ingestAux_store_mono digest assign rest _ _ (i + 1) s ?_
          simp [storeFps]
    · by_cases h1 : candFingerprint digest c ∈ seen
      · simp only [h1, if_pos]
        exact ih seen store i (s + 1) hseen d hd'
      · simp only [h1, if_neg, if_false]
        by_cases h2 : candFingerprint digest c ∈ storeFps store
        · simp only [h2, if_pos]
          refine ih _ store i (s + 1) ?_ d hd'
          intro f hf
          rcases List.mem_cons.mp hf with rfl | hf'
          · exact h2
          · exact hseen _ hf'
        · simp only [h2, if_neg, if_false]
          refine ih _ _ (i + 1) s ?_ d hd'
          intro f hf
          rcases List.mem_cons.mp hf with rfl | hf'
          · simp [storeFps]
          · simp only [storeFps, List.map_append]
            exact List.mem_append_left _ (hseen _ hf')

theorem ingestAux_all_skipped (digest : String → String)
    (assign : Cand → Option Nat) (cands : List Cand) :
    ∀ seen store i s, (∀ c ∈ cands, candFingerprint digest c ∈ storeFps store) →
      ingestAux digest assign cands seen store i s = ⟨i, s + cands.length, store⟩ := by
  induction cands with
  | nil => intro seen store i s _; simp [ingestAux]
  | cons c rest ih =>
    intro seen store i s hall
    have hc : candFingerprint digest c ∈ storeFps store := hall c (by simp)
    have hrest : ∀ d ∈ rest, candFingerprint digest d ∈ storeFps store :=
      fun d hd => hall d (by simp [hd])
    unfold ingestAux
    by_cases h1 : candFingerprint digest c ∈ seen
    · simp only [h1, if_pos]
      rw [ih seen store i (s + 1) hrest]
      simp [Nat.add_comm, Nat.add_assoc, Nat.add_left_comm]
    · simp only [h1, if_neg, if_false, hc, if_pos]
      rw [ih _ store i (s + 1) hrest]
      simp [Nat.add_comm, Nat.add_assoc, Nat.add_left_comm]

theorem ingestAux_nodup (digest : String → String)
    (assign : Cand → Option Nat) (cands : List Cand) :
    ∀ seen store i s, (storeFps store).Nodup →
      (storeFps (ingestAux digest assign cands seen store i s).store).Nodup := by
  induction cands with
  | nil => intro _ _ _ _ h; exact h
  | cons c rest ih =>
    intro seen store i s hnd
    unfold ingestAux
    by_cases h1 : candFingerprint digest c ∈ seen
    · simp only [h1, if_pos]; exact ih seen store i (s + 1) hnd
    · simp only [h1, if_neg, if_false]
      by_cases h2 : candFingerprint digest c ∈ storeFps store
      · simp only [h2, if_pos]; exact ih _ store i (s + 1) hnd
      · simp only [h2, if_neg, if_false]
        refine ih _ _ (i + 1) s ?_
        simp only [storeFps, List.map_append, List.map_cons, List.map_nil]
        rw [List.nodup_append]
        exact ⟨hnd, List.nodup_singleton _,
          fun f hf hmem => h2 (by simp at hmem; exact hmem ▸ hf)⟩

theorem ingestAux_counts (digest : String → String)
    (assign : Cand → Option Nat) (cands : List Cand) :
    ∀ seen store i s,
      (ingestAux digest assign cands seen store i s).importedCount +
        (ingestAux digest assign cands seen store i s).skippedCount =
      i + s + cands.length := by
  induction cands with
  | nil => intro seen store i s; simp [ingestAux]
  | cons c rest ih =>
    intro seen store i s
    unfold ingestAux
    by_cases h1 : candFingerprint digest c ∈ seen
    · simp only [h1, if_pos]
      rw [ih seen store i (s + 1)]
      simp; omega
    · simp only [h1, if_neg, if_false]
      by_cases h2 : candFingerprint digest c ∈ storeFps store
      · simp only [h2, if_pos]
        rw [ih _ store i (s + 1)]
        simp; omega
      · simp only [h2, if_neg, if_false]
        rw [ih _ _ (i + 1) s]
        simp; omega

/-! ## Claim C2: ingestion idempotence -/

/-- A concrete candidate for the counterexample and witnesses. -/
def cexCand : Cand := ⟨"2024-01-02", "5.00", "coffee"⟩

/-- Counterexample to C2 as stated.  A statement whose parsed candidates are
[c, c] imported into an empty store yields imported_count N = 1 on the first
run (the in-batch duplicate is skipped), but the second run reports
skipped_count = 2, the total candidate count, not N = 1. -/
theorem ingest_skipped_eq_imported_counterexample :
    (ingestImport id (fun _ => none) [cexCand, cexCand]
        (ingestImport id (fun _ => none) [cexCand, cexCand] []).store).skippedCount ≠
      (ingestImport id (fun _ => none) [cexCand, cexCand] []).importedCount := by
  decide

/-- C2 amended.  Re-running ingest over the same parsed candidates against the
store left by the first run imports 0 new transactions, leaves the store
unchanged, and reports skipped_count equal to the total number of parsed
candidates — which equals the first run's imported_count exactly when the
first run skipped none, since imported + skipped = candidate count.  Moreover
two candidates with equal fingerprint produce at most one stored transaction:
distinctness of stored fingerprints is preserved by a run. -/
theorem ingest_idempotent (digest : String → String)
    (assign1 assign2 : Cand → Option Nat)
    (cands : List Cand) (store : List StoredTxn)
    (hnd : (storeFps store).Nodup) :
    (ingestImport digest assign2 cands
        (ingestImport digest assign1 cands store).store).importedCount = 0 ∧
    (ingestImport digest assign2 cands
        (ingestImport digest assign1 cands store).store).skippedCount = cands.length ∧
    (ingestImport digest assign2 cands
        (ingestImport digest assign1 cands store).store).store =
      (ingestImport digest assign1 cands store).store ∧
    (storeFps (ingestImport digest assign1 cands store).store).Nodup ∧
    (ingestImport digest assign1 cands store).importedCount +
        (ingestImport digest assign1 cands store).skippedCount = cands.length := by
  have hall : ∀ c ∈ cands, candFingerprint digest c ∈
      storeFps (ingestImport digest assign1 cands store).store :=
    ingestAux_fps_complete digest assign1 cands [] store 0 0 (by intro f hf; cases hf)
  have hrun2 := ingestAux_all_skipped digest assign2 cands []
    (ingestImport digest assign1 cands store).store 0 0 hall
  have hcounts := ingestAux_counts digest assign1 cands [] store 0 0
  refine ⟨?_, ?_, ?_, ingestAux_nodup digest assign1 cands [] store 0 0 hnd, ?_⟩
  · show (ingestAux digest assign2 cands [] _ 0 0).importedCount = 0
    rw [hrun2]
  · show (ingestAux digest assign2 cands [] _ 0 0).skippedCount = cands.length
    rw [hrun2]
    simp
  · show (ingestAux digest assign2 cands [] _ 0 0).store = _
    rw [hrun2]
  · simpa using hcounts

/-- Witness for C2 at a concrete one-candidate statement and empty store. -/
theorem ingest_idempotent_witness :
    (ingestImport id (fun _ => none) [cexCand]
        (ingestImport id (fun _ => none) [cexCand] []).store).importedCount = 0 ∧
    (ingestImport id (fun _ => none) [cexCand]
        (ingestImport id (fun _ => none) [cexCand] []).store).skippedCount = 1 :=
  ⟨(ingest_idempotent id (fun _ => none) (fun _ => none) [cexCand] []
      (by decide)).1,
   (ingest_idempotent id (fun _ => none) (fun _ => none) [cexCand] []
      (by decide)).2.1⟩

/-! ## Claim C3: post-commit sweep and the ML fallback -/

/-- A persisted transaction row as the post-commit sweep reads it. -/
structure TxnRow where
  importId : Nat
  description : String
  merchant : Option String
  merchantId : Option Nat
  merchantKey : Option String
  categoryId : Option Nat
deriving DecidableEq

/-- Embeds the post-commit block of ingest_import (lines 182-222): rows of
this import still lacking a category get categorize_transaction re-applied;
then the code attempts the ML pass inside try/except by importing
categorize_transactions_with_ml from app.categorize.engine — but engine.py
defines no such function, so the import raises, the handler catches it, and
ml_applied stays 0.  The mlPredict collaborator is therefore never consulted;
it is kept as a parameter precisely to state that fact.  Returns the updated
rows, recategorized_count and ml_applied. -/
def sweepImport (rx : String → String → Except Unit Bool) (db : Db)
    (householdId importId : Nat) (rows : List TxnRow)
    (_mlPredict : String → Option (Nat × ℚ)) : List TxnRow × Nat × Nat :=
  let step := fun (t : TxnRow) =>
    if t.importId == importId && t.categoryId.isNone then
      match categorizeTransaction rx db householdId t.description t.merchant
          t.merchantId t.merchantKey with
      | some c => ({ t with categoryId := some c }, true)
      | none => (t, false)
    else (t, false)
  let results := rows.map step
  (results.map Prod.fst, (results.filter (fun p => p.2)).length, 0)

/-- A regex engine that never matches, so no rule fires in the example. -/
def rxNever : String → String → Except Unit Bool := fun _ _ => Except.ok false

/-- An uncategorized row of import 7 with no merchant data and no matching
rule: per the claim, an ML prediction of confidence 0.9 at least the 0.75
threshold should be applied to it. -/
def mlDemoRow : TxnRow := ⟨7, "STARBUCKS STORE 123", none, none, some "STARBUCKS", none⟩

/-- C3 (code divergence).  Whatever predictor the household's model would
supply, the sweep reports ml_applied = 0, because the function the ML pass
imports does not exist and the exception is swallowed; concretely, a row that
stays uncategorized after the rule re-scan remains uncategorized even though
the predictor offers category 4 at confidence 0.9, which the claim says must
be assigned and counted. -/
theorem sweep_ml_never_applied (rx : String → String → Except Unit Bool)
    (db : Db) (householdId importId : Nat) (rows : List TxnRow)
    (mlPredict : String → Option (Nat × ℚ)) :
    (sweepImport rx db householdId importId rows mlPredict).2.2 = 0 ∧
    sweepImport rxNever ⟨[], [], []⟩ 1 7 [mlDemoRow] (fun _ => some (4, 9/10)) =
      ([mlDemoRow], 0, 0) := by
  constructor
  · rfl
  · decide

/-! ## BofA statement parsing (backend/app/ingest/parsers/bofa.py)

The geometric word extraction and Y-tolerance line grouping consume
pdfplumber float coordinates; a page therefore enters the embedding as its
grouped result, the ordered list of lines of word texts, and the pdfplumber
open step enters as an Except value: an error is the exception the try/except
of BofAParser.parse converts into a single warning. -/

/-- Calendar date produced by _parse_date. -/
structure PDate where
  year : Nat
  month : Nat
  day : Nat
deriving DecidableEq

/-- Parsed transaction candidate (amounts are exact rationals, standing for
the Decimal values of _parse_amount). -/
structure ParsedTransaction where
  postedDate : PDate
  description : String
  amount : ℚ
deriving DecidableEq

/-- Result of BofAParser.parse. -/
structure ParseResult where
  transactions : List ParsedTransaction
  warnings : List String
deriving DecidableEq

/-- Character class of the regex piece matching digits or thousands commas. -/
def isDigitOrComma (c : Char) : Bool := c.isDigit || c = ','

/-- Matches core.dd where core is a nonempty run over digits and commas and
dd are exactly two digits — the shared body of both AMOUNT_PATTERN branches. -/
def amountBodyMatch (cs : List Char) : Bool :=
  match cs.reverse with
  | b :: a :: '.' :: rest =>
    a.isDigit && b.isDigit && !rest.isEmpty && rest.all isDigitOrComma
  | _ => false

/-- Drop one optional leading occurrence of a character. -/
def dropOpt (c : Char) (l : List Char) : List Char :=
  match l with
  | x :: rest => if x = c then rest else l
  | [] => []

/-- Embeds AMOUNT_PATTERN: either -? dollar? [digits,]+ . dd, or the
parenthesized-negative form ([digits,]+.dd), both anchored. -/
def amountPatternMatch (s : String) : Bool :=
  let cs := s.data
  amountBodyMatch (dropOpt '$' (dropOpt '-' cs)) ||
    (match cs with
     | '(' :: rest =>
       decide (rest ≠ []) && rest.getLast? == some ')' && amountBodyMatch rest.dropLast
     | _ => false)

/-- Numeric value of a digit run. -/
def digitsVal (l : List Char) : Nat :=
  l.foldl (fun acc c => acc * 10 + (c.toNat - '0'.toNat)) 0

/-- Restricted model of Decimal(str): optional sign, integer digits, optional
fraction; anything else is InvalidOperation, i.e. none.  This covers every
string _parse_amount can build from a pattern-matched token. -/
def parseDecimal (cs : List Char) : Option ℚ :=
  let (neg, rest) :=
    match cs with
    | '-' :: r => (true, r)
    | '+' :: r => (false, r)
    | r => (false, r)
  let intPart := rest.takeWhile Char.isDigit
  let after := rest.dropWhile Char.isDigit
  let sign : ℤ := if neg then -1 else 1
  match after with
  | [] =>
    if intPart.isEmpty then none
    else some (Rat.divInt (sign * (digitsVal intPart : ℤ)) 1)
  | '.' :: fra =>
    if fra.all Char.isDigit && !(intPart.isEmpty && fra.isEmpty) then
      some (Rat.divInt
        (sign * ((digitsVal intPart : ℤ) * (10 ^ fra.length : ℤ) + (digitsVal fra : ℤ)))
        ((10 : ℤ) ^ fra.length))
    else none
  | _ => none

/-- The cleanup of _parse_amount: delete every dollar sign and comma, turn a
fully parenthesized form into a leading minus. -/
def cleanedAmountChars (s : String) : List Char :=
  let cleaned := s.data.filter (fun c => c ≠ '$' && c ≠ ',')
  match cleaned with
  | '(' :: rest =>
    if rest ≠ [] ∧ rest.getLast? = some ')' then '-' :: rest.dropLast else '(' :: rest
  | l => l

/-- Embeds _parse_amount. -/
def parseAmount (s : String) : Option ℚ := parseDecimal (cleanedAmountChars s)

/-- Rendering of the Decimal in the empty-description warning; for every
token the amount pattern accepts this is str(Decimal(cleaned)) up to leading
zeros, which no claim inspects. -/
def cleanedAmountStr (s : String) : String := (cleanedAmountChars s).asString

/-- Split a character list on slashes (str.split of _parse_date). -/
def splitSlashAux : List Char → List Char → List (List Char)
  | cur, [] => [cur.reverse]
  | cur, c :: rest =>
    if c = '/' then cur.reverse :: splitSlashAux [] rest
    else splitSlashAux (c :: cur) rest

/-- Embeds DATE_PATTERN: one or two digits, slash, one or two digits, and an
optional slash plus two-to-four-digit year, anchored at both ends. -/
def datePatternMatch (s : String) : Bool :=
  let two := fun (f : List Char) =>
    decide (1 ≤ f.length) && decide (f.length ≤ 2) && f.all Char.isDigit
  match splitSlashAux [] s.data with
  | [mm, dd] => two mm && two dd
  | [mm, dd, yy] =>
    two mm && two dd && decide (2 ≤ yy.length) && decide (yy.length ≤ 4) &&
      yy.all Char.isDigit
  | _ => false

/-- Gregorian leap year, as validated by datetime.strptime. -/
def isLeap (y : Nat) : Bool := (y % 4 == 0 && y % 100 != 0) || y % 400 == 0

/-- Days in a month. -/
def daysInMonth (y m : Nat) : Nat :=
  if m = 2 then (if isLeap y then 29 else 28)
  else if m = 4 ∨ m = 6 ∨ m = 9 ∨ m = 11 then 30
  else 31

/-- Date validity check performed by strptime. -/
def validDate (y m d : Nat) : Bool :=
  decide (1 ≤ m) && decide (m ≤ 12) && decide (1 ≤ d) && decide (d ≤ daysInMonth y m)

/-- A one-or-two-digit field accepted by the strptime codes for month/day. -/
def mdField (f : List Char) : Bool :=
  decide (1 ≤ f.length) && decide (f.length ≤ 2) && f.all Char.isDigit

/-- Embeds _parse_date without its warning side channel (the caller attaches
the warning): branch on length over 5 and on a four-character final field as
the code does; two-digit years follow the POSIX %y pivot (0-68 maps onto
2000-2068); the bare month/day form is validated by strptime against its
default year 1900 — which is not a leap year, so 02/29 fails — and the
current calendar year is substituted afterwards, entering here as the
parameter currentYear. -/
def parseDate (currentYear : Nat) (s : String) : Option PDate :=
  let fields := splitSlashAux [] s.data
  if decide (s.length > 5) then
    match fields with
    | [mm, dd, yy] =>
      if yy.length = 4 then
        if mdField mm && mdField dd && yy.all Char.isDigit &&
            validDate (digitsVal yy) (digitsVal mm) (digitsVal dd) then
          some ⟨digitsVal yy, digitsVal mm, digitsVal dd⟩
        else none
      else if yy.length = 2 && yy.all Char.isDigit then
        let y := if digitsVal yy ≤ 68 then 2000 + digitsVal yy else 1900 + digitsVal yy
        if mdField mm && mdField dd && validDate y (digitsVal mm) (digitsVal dd) then
          some ⟨y, digitsVal mm, digitsVal dd⟩
        else none
      else none
    | _ => none
  else
    match fields with
    | [mm, dd] =>
      if mdField mm && mdField dd && validDate 1900 (digitsVal mm) (digitsVal dd) then
        some ⟨currentYear, digitsVal mm, digitsVal dd⟩
      else none
    | _ => none

/-- Index of the last element satisfying p, the right-to-left scan of
_parse_row. -/
def lastIdxWhere (p : String → Bool) : List String → Option Nat
  | [] => none
  | x :: xs =>
    match lastIdxWhere p xs with
    | some i => some (i + 1)
    | none => if p x then some 0 else none

/-- Embeds _parse_row: scan from the right for the last token matching the
amount pattern (after str.strip of the token); no amount, or an unparsable
one, warns and drops the row; the description slice is
row_words[:amount_idx] if amount_idx else row_words[:-1] — note the Python
truthiness of the index; an empty description warns and drops the row; the
sign is forced by the section. -/
def parseRow (postedDate : PDate) (rowWords : List String) (sect : Option String)
    (pageNum : Nat) : Option ParsedTransaction × List String :=
  if rowWords.isEmpty then (none, [])
  else
    match lastIdxWhere (fun w => amountPatternMatch (pyStrip w)) rowWords with
    | none =>
      (none, ["Page " ++ toString pageNum ++ ": Could not find amount in row: " ++
        joinSpace (rowWords.take 5) ++ "..."])
    | some i =>
      let word := pyStrip (rowWords.getD i "")
      match parseAmount word with
      | none =>
        (none, ["Page " ++ toString pageNum ++ ": Could not find amount in row: " ++
          joinSpace (rowWords.take 5) ++ "..."])
      | some amount =>
        let descriptionWords := if i ≠ 0 then rowWords.take i else rowWords.dropLast
        let description := pyStrip (joinSpace descriptionWords)
        if description = "" then
          (none, ["Page " ++ toString pageNum ++ ": Empty description for amount " ++
            cleanedAmountStr word])
        else
          let amount :=
            if sect = some "deposits" then (if amount < 0 then -amount else amount)
            else if sect = some "withdrawals" then
              (if 0 < amount then -amount else amount)
            else amount
          (some ⟨postedDate, description, amount⟩, [])

/-- Section header substrings entering the deposits state. -/
def depositMarkers : List String := ["deposits and other additions", "deposits"]

/-- Section header substrings entering the withdrawals state. -/
def withdrawalMarkers : List String :=
  ["withdrawals and other subtractions", "other subtractions", "withdrawals", "checks paid"]

/-- Substrings that end the current section. -/
def sectionEndMarkers : List String :=
  ["total deposits", "total withdrawals", "total other", "ending balance", "total checks"]

/-- Header and footer substrings skipped inside a section. -/
def skipKeywords : List String :=
  ["ending balance", "beginning balance", "subtotal", "continued", "page", "statement period"]

/-- Walking state of _parse_page. -/
structure PageState where
  sect : Option String
  row : List String
  date : Option PDate
  txns : List ParsedTransaction
  warns : List String

/-- The flush used at section transitions: requires row, date and section all
truthy, emits the row and clears row and date. -/
def sectionFlush (pageNum : Nat) (st : PageState) : PageState :=
  if st.row ≠ [] ∧ st.date.isSome ∧ st.sect.isSome then
    match st.date with
    | some d =>
      let (txn, ws) := parseRow d st.row st.sect pageNum
      { st with
        row := [], date := none,
        txns := st.txns ++ txn.toList,
        warns := st.warns ++ ws }
    | none => st
  else st

/-- The flush used when a new date line begins: checks only row and date. -/
def dateFlush (pageNum : Nat) (st : PageState) : PageState :=
  if st.row ≠ [] ∧ st.date.isSome then
    match st.date with
    | some d =>
      let (txn, ws) := parseRow d st.row st.sect pageNum
      { st with txns := st.txns ++ txn.toList, warns := st.warns ++ ws }
    | none => st
  else st

/-- One loop iteration of _parse_page over a grouped line. -/
def pageStep (currentYear pageNum : Nat) (st : PageState)
    (lineWords : List String) : PageState :=
  let lineLower := pyLower (pyStrip (joinSpace lineWords))
  if depositMarkers.any (fun m => strContains lineLower m) then
    { sectionFlush pageNum st with sect := some "deposits" }
  else if withdrawalMarkers.any (fun m => strContains lineLower m) then
    { sectionFlush pageNum st with sect := some "withdrawals" }
  else if sectionEndMarkers.any (fun m => strContains lineLower m) then
    { sectionFlush pageNum st with sect := none }
  else
    match st.sect with
    | none => st
    | some _ =>
      if skipKeywords.any (fun k => strContains lineLower k) then st
      else
        let firstWord := lineWords.headD ""
        if datePatternMatch firstWord then
          let st := dateFlush pageNum st
          match parseDate currentYear firstWord with
          | some d => { st with date := some d, row := lineWords.drop 1 }
          | none =>
            { st with
              warns := st.warns ++ ["Could not parse date: " ++ firstWord],
              date := none, row := lineWords.drop 1 }
        else { st with row := st.row ++ lineWords }

/-- Embeds _parse_page over the grouped lines of one page: walk the lines,
then flush the final pending row (checking row and date only, like the Python
epilogue). -/
def parsePage (currentYear pageNum : Nat) (lines : List (List String)) :
    List ParsedTransaction × List String :=
  if lines = [] then ([], [])
  else
    let final := lines.foldl (pageStep currentYear pageNum)
      ⟨none, [], none, [], []⟩
    let final := dateFlush pageNum final
    (final.txns, final.warns)

/-- Page-by-page accumulation of parse, with 1-based page numbers. -/
def bofaParsePages (currentYear : Nat) : Nat → List (List (List String)) →
    List ParsedTransaction × List String
  | _, [] => ([], [])
  | pageNum, p :: rest =>
    let (t, w) := parsePage currentYear pageNum p
    let (t', w') := bofaParsePages currentYear (pageNum + 1) rest
    (t ++ t', w ++ w')

/-- Embeds BofAParser.parse: the pdfplumber open step enters as an Except; an
exception is converted by the except-handler into the single warning built
from the exception text, with the transactions gathered so far — none at all
when the document cannot be opened. -/
def bofaParse (currentYear : Nat)
    (openRes : Except String (List (List (List String)))) : ParseResult :=
  match openRes with
  | .error e => ⟨[], ["Failed to parse PDF: " ++ e]⟩
  | .ok pages =>
    let (t, w) := bofaParsePages currentYear 1 pages
    ⟨t, w⟩

/-! ## Claim C4: the parser never raises; total failure gives 0 and 1 -/

/-- A one-page statement with a deposits section and one dated row, used to
exercise the success branch of the embedding. -/
def demoPage : List (List String) :=
  [["Deposits", "and", "other", "additions"],
   ["01/02", "PAYROLL", "ACME", "1,234.56"],
   ["Total", "deposits"]]

/-- C4.  parse is a total function of the open outcome — the try/except
materializes as the Except scrutinee, so malformed content cannot raise — and
a total parse failure (the document cannot be opened) yields exactly zero
transactions and exactly one warning carrying the failure text.  The closed
conjunct runs the success branch on a concrete page to show the same function
produces transactions when the document opens. -/
theorem bofa_parse_total_failure (currentYear : Nat) (e : String) :
    (bofaParse currentYear (Except.error e)).transactions.length = 0 ∧
    (bofaParse currentYear (Except.error e)).warnings =
      ["Failed to parse PDF: " ++ e] ∧
    bofaParse 2024 (Except.ok [demoPage]) =
      ⟨[⟨⟨2024, 1, 2⟩, "PAYROLL ACME", Rat.divInt 123456 100⟩], []⟩ := by
  refine ⟨rfl, rfl, by decide⟩

/-! ## Claim C6: row finalization and the first-token amount slip -/

/-- C6 (code divergence).  Evaluations of _parse_row around the amount token
position: with the amount token in the middle the description is exactly the
tokens strictly to its left; a lone amount token gives an empty description,
hence a warning and no transaction; but when the rightmost amount-matching
token sits at index 0 with other tokens after it, the Python expression
row_words[:amount_idx] if amount_idx else row_words[:-1] takes the slice
row_words[:-1] — so the emitted transaction's description is the amount token
itself, not the empty strictly-left slice the claim (and the code's own
comment) prescribe, and no warning is raised. -/
theorem parseRow_first_token_amount_bug :
    parseRow ⟨2024, 1, 2⟩ ["STORE", "5.00"] (some "withdrawals") 1 =
      (some ⟨⟨2024, 1, 2⟩, "STORE", -5⟩, []) ∧
    parseRow ⟨2024, 1, 2⟩ ["5.00"] (some "withdrawals") 1 =
      (none, ["Page 1: Empty description for amount 5.00"]) ∧
    parseRow ⟨2024, 1, 2⟩ ["5.00", "FOO"] (some "withdrawals") 1 =
      (some ⟨⟨2024, 1, 2⟩, "5.00", -5⟩, []) := by
  refine ⟨by decide, by decide, by decide⟩

/-! ## Rule mining (backend/app/api/learning.py) -/

/-- A reviewed transaction as generate_rules reads it: description,
merchant_key and the non-null category label. -/
structure TxnReview where
  description : String
  merchantKey : Option String
  categoryId : Nat
deriving DecidableEq

/-- The STOPWORDS set of learning.py. -/
def ruleStopwords : List String :=
  ["THE", "AND", "FOR", "FROM", "WITH", "POS", "PURCHASE", "DEBIT", "CREDIT",
   "CARD", "ONLINE", "PAYMENT", "TRANSFER", "TRANSACTION", "ACH", "WITHDRAWAL",
   "DEPOSIT", "CHECK", "WIRE", "MOBILE", "RECURRING", "AUTHORIZED", "REF",
   "CONF", "TXN", "INC", "LLC", "CORP", "LTD"]

/-- Characters of the regex class A-Za-z0-9 that re.split keeps together. -/
def isTokenChar (c : Char) : Bool :=
  ('A' ≤ c && c ≤ 'Z') || ('a' ≤ c && c ≤ 'z') || c.isDigit

/-- Maximal alphanumeric runs of a character list — the non-empty pieces of
re.split over one-or-more non-alphanumerics (the empty edge pieces re.split
also returns are discarded by the length filter anyway). -/
def runSplitAux : List Char → List Char → List String
  | cur, [] => if cur.isEmpty then [] else [cur.reverse.asString]
  | cur, c :: rest =>
    if isTokenChar c then runSplitAux (c :: cur) rest
    else if cur.isEmpty then runSplitAux [] rest
    else cur.reverse.asString :: runSplitAux [] rest

/-- Python str.isdigit on an ASCII token: non-empty and all digits. -/
def pyIsDigitStr (s : String) : Bool := !s.data.isEmpty && s.data.all Char.isDigit

/-- Embeds _tokenize of learning.py: uppercase, split on non-alphanumerics,
drop tokens shorter than 3, stopwords and pure numbers. -/
def ruleTokenize (text : String) : List String :=
  if text = "" then []
  else (runSplitAux [] (pyUpper text).data).filter
    (fun t => decide (3 ≤ t.length) && !ruleStopwords.contains t && !pyIsDigitStr t)

/-- First-occurrence deduplication, with an accumulator of already-seen
elements; models iterating a Python set built from a list (set iteration
order is hash-dependent in Python; the counting claims below are independent
of the order, and first-occurrence order is the deterministic stand-in). -/
def dedupFirstAux {α : Type} [DecidableEq α] (seen : List α) : List α → List α
  | [] => []
  | x :: xs =>
    if x ∈ seen then dedupFirstAux seen xs
    else x :: dedupFirstAux (x :: seen) xs

/-- First-occurrence deduplication. -/
def dedupFirst {α : Type} [DecidableEq α] (l : List α) : List α := dedupFirstAux [] l

/-- The combined text handed to _tokenize: description, plus the merchant_key
when truthy, joined by a space. -/
def reviewText (t : TxnReview) : String :=
  match t.merchantKey with
  | some k => if k ≠ "" then t.description ++ " " ++ k else t.description
  | none => t.description

/-- The unique tokens a transaction contributes (counted once per
transaction). -/
def txnTokens (t : TxnReview) : List String := dedupFirst (ruleTokenize (reviewText t))

/-- token_total_counts[tok]: the defaultdict receives one increment per
transaction whose unique-token set contains tok, so it ends at this count. -/
def tokenSupport (txs : List TxnReview) (tok : String) : Nat :=
  (txs.filter (fun t => tok ∈ txnTokens t)).length

/-- token_category_counts[tok][c], by the same correspondence. -/
def tokenCatSupport (txs : List TxnReview) (tok : String) (c : Nat) : Nat :=
  (txs.filter (fun t => tok ∈ txnTokens t && t.categoryId == c)).length

/-- The keys of token_total_counts, in first-contribution order. -/
def allRuleTokens (txs : List TxnReview) : List String :=
  dedupFirst ((txs.map txnTokens).flatten)

/-- The keys of token_category_counts[tok] in insertion order: the categories
of the transactions containing tok, first occurrence first. -/
def tokCats (txs : List TxnReview) (tok : String) : List Nat :=
  dedupFirst ((txs.filter (fun t => tok ∈ txnTokens t)).map (fun t => t.categoryId))

/-- Python max(keys, key=count): the first key in iteration order attaining
the maximal count (ties keep the earlier key). -/
def firstArgmax (count : Nat → Nat) : List Nat → Option Nat
  | [] => none
  | c :: cs => some (cs.foldl (fun best k => if count best < count k then k else best) c)

/-- best_category_id for a token. -/
def majorityCategory (txs : List TxnReview) (tok : String) : Option Nat :=
  firstArgmax (tokenCatSupport txs tok) (tokCats txs tok)

/-- A mined candidate: token, majority category, its count (the precision
numerator) and the total support (the precision denominator). -/
structure RuleCandidate where
  token : String
  categoryId : Nat
  precisionNum : Nat
  support : Nat
deriving DecidableEq

/-- Candidate selection: support at least MIN_SUPPORT = 5 and majority share
at least MIN_PRECISION = 0.90, the float comparison best/total at least 0.9
rendered exactly as 9 * total at most 10 * best. -/
def ruleCandidates (txs : List TxnReview) : List RuleCandidate :=
  (allRuleTokens txs).filterMap (fun tok =>
    let total := tokenSupport txs tok
    if total < 5 then none
    else
      match majorityCategory txs tok with
      | none => none
      | some best =>
        if 9 * total ≤ 10 * tokenCatSupport txs tok best then
          some ⟨tok, best, tokenCatSupport txs tok best, total⟩
        else none)

/-- Strict "sorts earlier" order of the candidate sort key
(-precision, -support): higher precision first, then higher support, with
precision compared exactly by cross-multiplication. -/
def candBefore (a b : RuleCandidate) : Bool :=
  let pa := a.precisionNum * b.support
  let pb := b.precisionNum * a.support
  (pb < pa) || (pa == pb && b.support < a.support)

/-- Stable insertion for the candidate sort. -/
def insertCand (a : RuleCandidate) : List RuleCandidate → List RuleCandidate
  | [] => [a]
  | x :: xs => if candBefore x a then x :: insertCand a xs else a :: x :: xs

/-- candidates.sort(key=(-precision, -support)), a stable sort. -/
def sortedCandidates (txs : List TxnReview) : List RuleCandidate :=
  (ruleCandidates txs).foldr insertCand []

/-- Embeds re.escape (Python 3.7 and later): escape exactly the special
characters, leave everything else alone. -/
def reEscapeChar (c : Char) : List Char :=
  if c ∈ ['(', ')', '[', ']', '\x7b', '\x7d', '?', '*', '+', '-', '|', '^',
      '$', '\\', '.', '&', '~', '#', ' ', '\t', '\n', '\r', '\x0b', '\x0c'] then
    ['\\', c]
  else [c]

/-- re.escape on a String. -/
def reEscape (s : String) : String := ((s.data.map reEscapeChar).flatten).asString

/-- The stored pattern of a mined rule: the word-boundary-wrapped escaped
token. -/
def rulePattern (tok : String) : String := "\\b" ++ reEscape tok ++ "\\b"

/-- The upsert of generate_rules: the first rule of the household with the
exact pattern text has category, priority and enabled refreshed in place;
with no such rule a new enabled rule is appended.  The Boolean reports
whether an update happened. -/
def upsertRule (h : Nat) (pat : String) (cat : Nat) (prio : ℤ) :
    List CategoryRule → List CategoryRule × Bool
  | [] => ([⟨h, pat, some cat, prio, true⟩], false)
  | r :: rs =>
    if r.householdId == h && r.pattern == pat then
      (⟨r.householdId, r.pattern, some cat, prio, true⟩ :: rs, true)
    else
      let (rs', u) := upsertRule h pat cat prio rs
      (r :: rs', u)

/-- Embeds generate_rules: collect candidates, sort, and upsert each in
order; returns the rule store plus (created, updated, candidates). -/
def generateRules (h : Nat) (store : List CategoryRule) (txs : List TxnReview) :
    List CategoryRule × Nat × Nat × Nat :=
  if txs.isEmpty then (store, 0, 0, 0)
  else
    let cands := sortedCandidates txs
    let final := cands.foldl (fun acc c =>
      let pat := rulePattern c.token
      let prio := computePriority (Rat.divInt c.precisionNum c.support) c.support
      let res := upsertRule h pat c.categoryId prio acc.1
      if res.2 then (res.1, acc.2.1, acc.2.2 + 1) else (res.1, acc.2.1 + 1, acc.2.2))
      (store, 0, 0)
    (final.1, final.2.1, final.2.2, cands.length)

/-- The spec's mining example: six reviewed transactions sharing the token
NETFLIX, all labelled category 7. -/
def netflixTxs : List TxnReview := List.replicate 6 ⟨"NETFLIX", none, 7⟩

theorem mem_insertCand {x a : RuleCandidate} {l : List RuleCandidate} :
    x ∈ insertCand a l ↔ x = a ∨ x ∈ l := by
  induction l with
  | nil => simp [insertCand]
  | cons y ys ih =>
    unfold insertCand
    by_cases h : candBefore y a
    · rw [if_pos h]
      simp only [List.mem_cons, ih]
      tauto
    · rw [if_neg h]
      simp only [List.mem_cons]

theorem mem_sortedCandidates {x : RuleCandidate} {txs : List TxnReview} :
    x ∈ sortedCandidates txs ↔ x ∈ ruleCandidates txs := by
  unfold sortedCandidates
  induction ruleCandidates txs with
  | nil => simp
  | cons y ys ih => simp [List.foldr, mem_insertCand, ih]

theorem ruleCandidates_mem_spec {txs : List TxnReview} {c : RuleCandidate}
    (hc : c ∈ ruleCandidates txs) :
    c.token ∈ allRuleTokens txs ∧
    majorityCategory txs c.token = some c.categoryId ∧
    c.precisionNum = tokenCatSupport txs c.token c.categoryId ∧
    c.support = tokenSupport txs c.token ∧
    5 ≤ tokenSupport txs c.token ∧
    9 * tokenSupport txs c.token ≤ 10 * c.precisionNum := by
  rw [ruleCandidates, List.mem_filterMap] at hc
  obtain ⟨tok, htok, hf⟩ := hc
  dsimp only at hf
  by_cases h5 : tokenSupport txs tok < 5
  · rw [if_pos h5] at hf; cases hf
  · rw [if_neg h5] at hf
    cases hmc : majorityCategory txs tok with
    | none => rw [hmc] at hf; cases hf
    | some best =>
      rw [hmc] at hf
      dsimp only at hf
      by_cases h9 : 9 * tokenSupport txs tok ≤ 10 * tokenCatSupport txs tok best
      · rw [if_pos h9] at hf
        injection hf with hf
        subst hf
        exact ⟨htok, hmc, rfl, rfl, by show 5 ≤ tokenSupport txs tok; omega, h9⟩
      · rw [if_neg h9] at hf; cases hf

theorem upsertRule_new (h : Nat) (pat : String) (cat : Nat) (prio : ℤ)
    (store : List CategoryRule)
    (hnone : ∀ r ∈ store, ¬(r.householdId = h ∧ r.pattern = pat)) :
    upsertRule h pat cat prio store =
      (store ++ [⟨h, pat, some cat, prio, true⟩], false) := by
  induction store with
  | nil => rfl
  | cons r rs ih =>
    have hr := hnone r (by simp)
    have hcond : (r.householdId == h && r.pattern == pat) = false := by
      cases h1 : r.householdId == h <;> cases h2 : r.pattern == pat <;>
        simp_all [beq_iff_eq]
    unfold upsertRule
    rw [hcond]
    simp only [Bool.false_eq_true, if_false]
    rw [ih (fun r' hr' => hnone r' (by simp [hr']))]
    rfl

theorem upsertRule_existing (h : Nat) (pat : String) (cat : Nat) (prio : ℤ)
    (pre post : List CategoryRule) (r : CategoryRule)
    (hpre : ∀ r' ∈ pre, ¬(r'.householdId = h ∧ r'.pattern = pat))
    (hh : r.householdId = h) (hp : r.pattern = pat) :
    upsertRule h pat cat prio (pre ++ r :: post) =
      (pre ++ ⟨r.householdId, r.pattern, some cat, prio, true⟩ :: post, true) := by
  induction pre with
  | nil =>
    simp only [List.nil_append]
    unfold upsertRule
    have : (r.householdId == h && r.pattern == pat) = true := by
      simp [beq_iff_eq, hh, hp]
    rw [this]
    simp
  | cons q qs ih =>
    have hq := hpre q (by simp)
    have hcond : (q.householdId == h && q.pattern == pat) = false := by
      cases h1 : q.householdId == h <;> cases h2 : q.pattern == pat <;>
        simp_all [beq_iff_eq]
    simp only [List.cons_append]
    unfold upsertRule
    rw [hcond]
    simp only [Bool.false_eq_true, if_false]
    rw [ih (fun r' hr' => hpre r' (by simp [hr']))]

/-! ## Claim C7: rule mining candidacy, patterns and upsert -/

/-- C7.  A token yields a mined candidate exactly when it occurs in the
reviewed corpus with per-transaction support at least 5 and a majority share
of at least 0.90; every candidate carries the majority category and the exact
support counts; the upsert is keyed on (household, exact pattern text):
a store without the pattern gets one new enabled rule appended, a store
containing it has that rule's category, priority and enabled refreshed in
place with nothing added; and the spec's example — six reviewed NETFLIX
transactions all labelled 7 — mines exactly the enabled rule with pattern
backslash-b NETFLIX backslash-b, category 7 and priority 32, reported as one
created, none updated, one candidate. -/
theorem generate_rules_mining (txs : List TxnReview) (tok : String) (hh : Nat)
    (pat : String) (cat : Nat) (prio : ℤ) (store : List CategoryRule)
    (pre post : List CategoryRule) (r : CategoryRule) :
    ((∃ c ∈ sortedCandidates txs, c.token = tok) ↔
      (tok ∈ allRuleTokens txs ∧ 5 ≤ tokenSupport txs tok ∧
        ∃ best, majorityCategory txs tok = some best ∧
          9 * tokenSupport txs tok ≤ 10 * tokenCatSupport txs tok best)) ∧
    (∀ c ∈ sortedCandidates txs,
        majorityCategory txs c.token = some c.categoryId ∧
        c.precisionNum = tokenCatSupport txs c.token c.categoryId ∧
        c.support = tokenSupport txs c.token) ∧
    ((∀ r' ∈ store, ¬(r'.householdId = hh ∧ r'.pattern = pat)) →
        upsertRule hh pat cat prio store =
          (store ++ [⟨hh, pat, some cat, prio, true⟩], false)) ∧
    ((∀ r' ∈ pre, ¬(r'.householdId = hh ∧ r'.pattern = pat)) →
        r.householdId = hh → r.pattern = pat →
        upsertRule hh pat cat prio (pre ++ r :: post) =
          (pre ++ ⟨r.householdId, r.pattern, some cat, prio, true⟩ :: post, true)) ∧
    generateRules 1 [] netflixTxs =
      ([⟨1, "\\bNETFLIX\\b", some 7, 32, true⟩], 1, 0, 1) := by
  refine ⟨?_, ?_, upsertRule_new hh pat cat prio store,
    fun h1 h2 h3 => upsertRule_existing hh pat cat prio pre post r h1 h2 h3, ?_⟩
  · constructor
    · rintro ⟨c, hc, rfl⟩
      have hs := ruleCandidates_mem_spec (mem_sortedCandidates.mp hc)
      exact ⟨hs.1, hs.2.2.2.2.1, c.categoryId, hs.2.1, by
        have := hs.2.2.2.2.2
        rw [hs.2.2.1] at this
        exact this⟩
    · rintro ⟨htok, h5, best, hmc, h9⟩
      refine ⟨⟨tok, best, tokenCatSupport txs tok best, tokenSupport txs tok⟩,
        mem_sortedCandidates.mpr ?_, rfl⟩
      rw [ruleCandidates, List.mem_filterMap]
      refine ⟨tok, htok, ?_⟩
      dsimp only
      rw [if_neg (by omega), hmc]
      dsimp only
      rw [if_pos h9]
  · intro c hc
    have hs := ruleCandidates_mem_spec (mem_sortedCandidates.mp hc)
    exact ⟨hs.2.1, hs.2.2.1, hs.2.2.2.1⟩
  · have hsc : sortedCandidates netflixTxs = [⟨"NETFLIX", 7, 6, 6⟩] := by decide
    have hpat : rulePattern "NETFLIX" = "\\bNETFLIX\\b" := by decide
    have hdiv : Rat.divInt ((6 : ℕ) : ℤ) ((6 : ℕ) : ℤ) = 1 := by decide
    have hcp : computePriority (Rat.divInt ((6 : ℕ) : ℤ) ((6 : ℕ) : ℤ)) 6 = 32 := by
      rw [hdiv]; unfold computePriority ratTrunc; norm_num
    unfold generateRules
    rw [if_neg (by decide : ¬netflixTxs.isEmpty = true), hsc]
    dsimp only [List.foldl]
    rw [hpat, hcp]
    rfl

/-- Witness for C7: candidacy of NETFLIX, a fresh-pattern insert and an
existing-pattern refresh, all at concrete stores. -/
theorem generate_rules_mining_witness :
    (∃ c ∈ sortedCandidates netflixTxs, c.token = "NETFLIX") ∧
    upsertRule 1 "\\bNETFLIX\\b" 7 32 [⟨1, "\\bCOSTCO\\b", some 3, 20, true⟩] =
      ([⟨1, "\\bCOSTCO\\b", some 3, 20, true⟩, ⟨1, "\\bNETFLIX\\b", some 7, 32, true⟩],
       false) ∧
    upsertRule 1 "\\bNETFLIX\\b" 9 40
        [⟨1, "\\bCOSTCO\\b", some 3, 20, true⟩, ⟨1, "\\bNETFLIX\\b", some 7, 32, false⟩] =
      ([⟨1, "\\bCOSTCO\\b", some 3, 20, true⟩, ⟨1, "\\bNETFLIX\\b", some 9, 40, true⟩],
       true) :=
  ⟨(generate_rules_mining netflixTxs "NETFLIX" 1 "" 0 0 [] [] [] ⟨0, "", none, 0, true⟩).1.mpr
      ⟨by decide, by decide, 7, by decide, by decide⟩,
   (generate_rules_mining netflixTxs "NETFLIX" 1 "\\bNETFLIX\\b" 7 32
      [⟨1, "\\bCOSTCO\\b", some 3, 20, true⟩] [] [] ⟨0, "", none, 0, true⟩).2.2.1
      (by decide),
   (generate_rules_mining netflixTxs "NETFLIX" 1 "\\bNETFLIX\\b" 9 40 []
      [⟨1, "\\bCOSTCO\\b", some 3, 20, true⟩] []
      ⟨1, "\\bNETFLIX\\b", some 7, 32, false⟩).2.2.2.1
      (by decide) (by decide) (by decide)⟩

/-! ## ML training and prediction (backend/app/ml/routes.py) -/

/-- A training example assembled by get_training_examples. -/
structure MlExample where
  text : String
  categoryId : Nat
deriving DecidableEq

/-- A FastAPI HTTPException as raised by the routes. -/
structure HttpError where
  status : Nat
  detail : String
deriving DecidableEq

/-- A fitted sklearn pipeline, abstracted to its class-probability function
(class id with probability); fitting itself is the external fit parameter. -/
structure MlModel where
  predictProba : String → List (Nat × ℚ)

/-- The metadata JSON written next to the model (accuracy and the training
timestamp are float/clock externals that no claim inspects and are left
out of the record). -/
structure MlMeta where
  householdId : Nat
  categories : List Nat
  nExamples : Nat
deriving DecidableEq

/-- Ascending insertion for sorted(set(...)). -/
def insertSortedNat (n : Nat) : List Nat → List Nat
  | [] => [n]
  | x :: xs => if n ≤ x then n :: x :: xs else x :: insertSortedNat n xs

/-- Python sorted(set(l)). -/
def sortedDistinct (l : List Nat) : List Nat := (dedupFirst l).foldr insertSortedNat []

/-- Overwrite-or-add into a household-keyed store, modelling the joblib/json
file write at the household's path. -/
def storePut {α : Type} (k : Nat) (v : α) : List (Nat × α) → List (Nat × α)
  | [] => [(k, v)]
  | (k', v') :: rest => if k' = k then (k', v) :: rest else (k', v') :: storePut k v rest

/-- Lookup in a household-keyed store; none models FileNotFoundError. -/
def storeGet {α : Type} (k : Nat) : List (Nat × α) → Option α
  | [] => none
  | (k', v) :: rest => if k' = k then some v else storeGet k rest

/-- Successful training response (accuracy omitted as a float external). -/
structure TrainOk where
  examples : Nat
  categories : List Nat
deriving DecidableEq

/-- Embeds train_ml of ml/routes.py: fewer than 50 examples fails first, then
fewer than 2 distinct categories; only the success path fits a model and
writes the artifact and metadata stores. -/
def trainMl (fit : List MlExample → MlModel) (householdId : Nat)
    (examples : List MlExample) (models : List (Nat × MlModel))
    (metas : List (Nat × MlMeta)) :
    Except HttpError TrainOk × List (Nat × MlModel) × List (Nat × MlMeta) :=
  if examples.length < 50 then
    (.error ⟨400, "Not enough training examples (min 50 required)"⟩, models, metas)
  else
    let categories := sortedDistinct (examples.map (fun e => e.categoryId))
    if categories.length < 2 then
      (.error ⟨400, "Need at least 2 unique categories to train"⟩, models, metas)
    else
      let model := fit examples
      (.ok ⟨examples.length, categories⟩,
       storePut householdId model models,
       storePut householdId ⟨householdId, categories, examples.length⟩ metas)

/-- Descending insertion by probability, modelling np.argsort reversed. -/
def insertByProbDesc (p : Nat × ℚ) : List (Nat × ℚ) → List (Nat × ℚ)
  | [] => [p]
  | x :: xs => if x.2 < p.2 then p :: x :: xs else x :: insertByProbDesc p xs

/-- Successful prediction response. -/
structure PredictOk where
  categoryId : Nat
  confidence : ℚ
  topK : List (Nat × ℚ)

/-- Embeds predict_ml: a missing artifact for the household is the
FileNotFoundError branch, converted to the 404; otherwise rank the class
probabilities and return the top-1 with the top-3 list (a fitted pipeline
always has at least one class, so the empty-ranking branch is unreachable
and mirrors the IndexError a classless model would raise). -/
def predictMl (householdId : Nat) (text : String)
    (models : List (Nat × MlModel)) : Except HttpError PredictOk :=
  match storeGet householdId models with
  | none =>
    .error ⟨404, "No model found for household " ++ toString householdId ++
      ". Train one with /ml/train."⟩
  | some m =>
    let ranked := (m.predictProba text).foldr insertByProbDesc []
    match ranked with
    | [] => .error ⟨500, "list index out of range"⟩
    | top :: _ => .ok ⟨top.1, top.2, ranked.take 3⟩

/-! ## Claim C9: training and prediction boundary errors -/

/-- C9.  Training fails with an insufficient-training-data 400 whenever the
assembled examples number fewer than 50 or span fewer than 2 distinct
categories, and in that case neither the model store nor the metadata store
changes; predicting for a household with no persisted model fails with the
model-not-found 404 (prediction never writes state at all — predictMl does
not even take the stores as anything but input). -/
theorem ml_train_predict_boundaries (fit : List MlExample → MlModel)
    (householdId : Nat) (examples : List MlExample)
    (models : List (Nat × MlModel)) (metas : List (Nat × MlMeta))
    (text : String) :
    ((examples.length < 50 ∨
        (sortedDistinct (examples.map (fun e => e.categoryId))).length < 2) →
      ((trainMl fit householdId examples models metas).1 =
          .error ⟨400, "Not enough training examples (min 50 required)"⟩ ∨
        (trainMl fit householdId examples models metas).1 =
          .error ⟨400, "Need at least 2 unique categories to train"⟩) ∧
      (trainMl fit householdId examples models metas).2.1 = models ∧
      (trainMl fit householdId examples models metas).2.2 = metas) ∧
    (storeGet householdId models = none →
      predictMl householdId text models =
        .error ⟨404, "No model found for household " ++ toString householdId ++
          ". Train one with /ml/train."⟩) := by
  constructor
  · intro hbad
    by_cases h50 : examples.length < 50
    · unfold trainMl
      rw [if_pos h50]
      exact ⟨Or.inl rfl, rfl, rfl⟩
    · have h2 : (sortedDistinct (examples.map (fun e => e.categoryId))).length < 2 := by
        rcases hbad with h | h
        · exact absurd h h50
        · exact h
      unfold trainMl
      rw [if_neg h50]
      dsimp only
      rw [if_pos h2]
      exact ⟨Or.inr rfl, rfl, rfl⟩
  · intro hnone
    unfold predictMl
    rw [hnone]

/-- Witness for C9: empty examples and an empty model store. -/
theorem ml_train_predict_boundaries_witness :
    (((trainMl (fun _ => MlModel.mk (fun _ => [])) 1 [] [] []).1 =
        .error ⟨400, "Not enough training examples (min 50 required)"⟩ ∨
      (trainMl (fun _ => MlModel.mk (fun _ => [])) 1 [] [] []).1 =
        .error ⟨400, "Need at least 2 unique categories to train"⟩) ∧
     (trainMl (fun _ => MlModel.mk (fun _ => [])) 1 [] [] []).2.1 = [] ∧
     (trainMl (fun _ => MlModel.mk (fun _ => [])) 1 [] [] []).2.2 = []) ∧
    predictMl 1 "COFFEE" [] =
      .error ⟨404, "No model found for household " ++ toString 1 ++
        ". Train one with /ml/train."⟩ :=
  ⟨(ml_train_predict_boundaries (fun _ => MlModel.mk (fun _ => [])) 1 [] [] []
      "COFFEE").1 (Or.inl (by decide)),
   (ml_train_predict_boundaries (fun _ => MlModel.mk (fun _ => [])) 1 [] [] []
      "COFFEE").2 rfl⟩

end FinanceLocal
